import Mathlib

/-!
Shallow embedding of the C++ design-pattern teaching examples in
`low-level-design-java-cpp`, together with theorems settling the spec's
claims about them.  Each demo's observable behaviour (text written to
standard output, exit code) is modelled as a pure Lean value; `std::cout`
lines become elements of a `List String`.  Pointers are modelled as `Nat`
allocation identifiers drawn from a counter, and `std::unordered_map` /
`std::map` state as association lists.
-/

namespace LLD

/-! ### Environment of a process run

Each demo's `main` takes no arguments and reads no input; to state
determinism we nevertheless thread an explicit process environment
(command-line arguments, environment variables, standard input) through
every embedded `main`.  The embedded bodies, like the C++ sources, never
consult it. -/

structure Env where
  args : List String
  vars : List (String × String)
  stdin : List String
deriving DecidableEq, Repr

/-! ### Builder pattern: `BuilderPatternDemo.cpp`

`Computer` holds two required string fields and two optional boolean
fields; `Computer::Builder` accumulates them and `build` produces the
`Computer`.  `printSpecs` writes one formatted line. -/

structure Computer where
  CPU : String
  RAM : String
  hasGraphicsCard : Bool
  hasBluetooth : Bool
deriving DecidableEq, Repr

structure ComputerBuilder where
  CPU : String
  RAM : String
  hasGraphicsCard : Bool
  hasBluetooth : Bool
deriving DecidableEq, Repr

/-- `Computer::Builder::Builder(cpu, ram)`: the optional fields default to
`false`. -/
def ComputerBuilder.mk0 (cpu ram : String) : ComputerBuilder :=
  { CPU := cpu, RAM := ram, hasGraphicsCard := false, hasBluetooth := false }

def ComputerBuilder.setGraphicsCard (b : ComputerBuilder) (value : Bool) :
    ComputerBuilder :=
  { b with hasGraphicsCard := value }

def ComputerBuilder.setBluetooth (b : ComputerBuilder) (value : Bool) :
    ComputerBuilder :=
  { b with hasBluetooth := value }

def ComputerBuilder.build (b : ComputerBuilder) : Computer :=
  { CPU := b.CPU, RAM := b.RAM, hasGraphicsCard := b.hasGraphicsCard,
    hasBluetooth := b.hasBluetooth }

/-- Rendering of a C++ `bool` streamed via the conditional
`(flag ? "true" : "false")`. -/
def boolStr (b : Bool) : String := if b then "true" else "false"

/-- `Computer::printSpecs`: the single line written to `std::cout`. -/
def Computer.printSpecs (c : Computer) : String :=
  "Computer [CPU=" ++ c.CPU ++ ", RAM=" ++ c.RAM ++
    ", GraphicsCard=" ++ boolStr c.hasGraphicsCard ++
    ", Bluetooth=" ++ boolStr c.hasBluetooth ++ "]"

/-- `main` of `BuilderPatternDemo.cpp`: builds the gaming PC and the
office PC, prints both spec lines, returns 0.  The environment is never
read. -/
def builderMain (_e : Env) : List String × Int :=
  let gamingPC : Computer :=
    (((ComputerBuilder.mk0 "Intel i9" "32GB").setGraphicsCard true).setBluetooth
      true).build
  let officePC : Computer :=
    (((ComputerBuilder.mk0 "Intel i5" "16GB").setGraphicsCard false).setBluetooth
      true).build
  ([gamingPC.printSpecs, officePC.printSpecs], 0)

/-! ### Factory pattern: `ShapeFactory` (factory example in
`DoubleCheckedSingleton.cpp`'s sibling document)

`Shape` has exactly three concrete subclasses, each with a one-line
`draw`; `ShapeFactory::getShape` tests the string argument against the
three recognized keys and otherwise returns `nullptr` (here `none`). -/

inductive Shape where
  | circle
  | rectangle
  | square
deriving DecidableEq, Repr

/-- The line printed by each concrete shape's `draw`. -/
def Shape.draw : Shape → String
  | .circle => "Drawing a Circle"
  | .rectangle => "Drawing a Rectangle"
  | .square => "Drawing a Square"

/-- `ShapeFactory::getShape(shapeType)`.  `ShapeFactory` has no data
members, so the function is pure and stateless. -/
def getShape (shapeType : String) : Option Shape :=
  if shapeType = "circle" then some .circle
  else if shapeType = "rectangle" then some .rectangle
  else if shapeType = "square" then some .square
  else none

/-! ### Prototype pattern: `EnemyFactory` (prototype example)

`Orc` and `Troll` each carry a name, a weapon and a health value;
`clone` is a value copy.  `EnemyFactory` keeps a registry mapping string
keys to prototype enemies; `getEnemy` looks the key up and returns a
clone of the stored prototype, or `nullptr` when the key is absent.  The
registry itself is modelled as an association list, and the factory state
is threaded through `getEnemy` to make visible that lookup never mutates
it. -/

inductive EnemyKind where
  | orc
  | troll
deriving DecidableEq, Repr

structure Enemy where
  kind : EnemyKind
  name : String
  weapon : String
  health : Int
deriving DecidableEq, Repr

/-- `Orc::clone` / `Troll::clone`: a deep copy of the object's value. -/
def Enemy.clone (e : Enemy) : Enemy :=
  { kind := e.kind, name := e.name, weapon := e.weapon, health := e.health }

structure EnemyFactory where
  prototypes : List (String × Enemy)
deriving DecidableEq, Repr

/-- The registry built by the registration routine of `EnemyFactory`
(called once at the top of `main`): the two prototypes. -/
def EnemyFactory.initRegistry : EnemyFactory :=
  { prototypes :=
      [("orc", { kind := .orc, name := "Orc Warrior", weapon := "Axe",
                 health := 100 }),
       ("troll", { kind := .troll, name := "Troll Brute", weapon := "Club",
                   health := 150 })] }

/-- `EnemyFactory::getEnemy(type)`: `prototypes.find(type)`, clone on a
hit, `nullptr` on a miss; the registry is returned unchanged on both
paths, as in the source, which only reads it. -/
def EnemyFactory.getEnemy (f : EnemyFactory) (type : String) :
    Option Enemy × EnemyFactory :=
  match f.prototypes.lookup type with
  | some e => (some e.clone, f)
  | none => (none, f)

/-! ### Singleton pattern: `ThreadSafeSingleton.cpp`,
`DoubleCheckedSingleton.cpp`, `MeyersSingleton.cpp`

Each class keeps one static instance slot, initially null.  The spec's
claim quantifies over sequential call sequences, so the mutex acquisitions
are no-ops in the model; `new` is modelled as drawing a fresh pointer
identifier from an allocation counter.  The state records the slot and the
counter, so "allocated at most once" is visible as the counter advancing
at most once. -/

structure PtrState where
  inst : Option Nat
  nextPtr : Nat
deriving DecidableEq, Repr

/-- The program's initial static state: `instance = nullptr`, no
allocations performed yet. -/
def PtrState.init : PtrState := { inst := none, nextPtr := 0 }

/-- `ThreadSafeSingleton::getInstance`: take the lock, then
`if (instance == nullptr) instance = new ThreadSafeSingleton();` and
return `instance`. -/
def threadSafeGetInstance (s : PtrState) : Nat × PtrState :=
  match s.inst with
  | none => (s.nextPtr, { inst := some s.nextPtr, nextPtr := s.nextPtr + 1 })
  | some p => (p, s)

/-- `DCLSingleton::getInstance`: check `instance == nullptr`, and only
then take the lock and re-check before allocating.  Sequentially the slot
cannot change between the two checks, which the nested match mirrors. -/
def dclGetInstance (s : PtrState) : Nat × PtrState :=
  match s.inst with
  | none =>
    match s.inst with
    | none => (s.nextPtr, { inst := some s.nextPtr, nextPtr := s.nextPtr + 1 })
    | some p => (p, s)
  | some p => (p, s)

/-- `MeyersSingleton::getInstance`: the function-local
`static MeyersSingleton instance` is constructed on the first call and the
same object is returned ever after; modelled with the same
initialize-once slot. -/
def meyersGetInstance (s : PtrState) : Nat × PtrState :=
  match s.inst with
  | none => (s.nextPtr, { inst := some s.nextPtr, nextPtr := s.nextPtr + 1 })
  | some p => (p, s)

/-- Run `n` sequential `getInstance` calls from state `s`, collecting the
returned pointers in order. -/
def runCalls (get : PtrState → Nat × PtrState) (s : PtrState) :
    Nat → List Nat × PtrState
  | 0 => ([], s)
  | n + 1 =>
    let (p, s') := get s
    let (ps, s'') := runCalls get s' n
    (p :: ps, s'')

/-! ### LSP-violation example (`02_principles/README.md`)

`Bird::fly` prints `"Flying\n"`; `Crow` inherits it unchanged;
`Ostrich::fly` overrides it to throw `std::logic_error("Ostrich can't
fly")`.  A call is modelled as `Except`: `.ok lines` for normal return
with the printed output, `.error msg` for a thrown exception (which
prints nothing). -/

def birdFly : Except String (List String) := .ok ["Flying"]

/-- `Crow` declares no members, so its `fly` is `Bird::fly`. -/
def crowFly : Except String (List String) := birdFly

def ostrichFly : Except String (List String) := .error "Ostrich can\x27t fly"

/-! ### Decorator pattern: `decorator_example.md`

`Beverage` with concrete components `Espresso`, `HouseBlend`, and
decorators `MilkDecorator`, `WhipDecorator` each wrapping a beverage.
The C++ `double` costs are modelled as rationals; every cost in the file
is a short decimal literal combined only by `+`, which `double`
arithmetic is not needed to distinguish at this granularity. -/

inductive Beverage where
  | espresso
  | houseBlend
  | milkDecorator (beverage : Beverage)
  | whipDecorator (beverage : Beverage)
deriving DecidableEq, Repr

def Beverage.getDescription : Beverage → String
  | .espresso => "Espresso"
  | .houseBlend => "House Blend Coffee"
  | .milkDecorator b => b.getDescription ++ ", Milk"
  | .whipDecorator b => b.getDescription ++ ", Whip"

def Beverage.cost : Beverage → ℚ
  | .espresso => 1.99
  | .houseBlend => 0.89
  | .milkDecorator b => b.cost + 0.30
  | .whipDecorator b => b.cost + 0.50

/-- `main` of the decorator demo: Espresso wrapped in Milk then Whip,
printing one description-and-cost line. -/
def decoratorDemoBeverage : Beverage :=
  .whipDecorator (.milkDecorator .espresso)

/-! ### Flyweight pattern: `flyweight_example.md`

`CharacterFactory` maps each requested `char` to one shared
`ConcreteCharacter`.  Shared pointers are modelled as `Nat` object
identifiers drawn from an allocation counter, and the
`std::unordered_map<char, shared_ptr<Character>>` as an association
list. -/

structure CharacterFactory where
  characters : List (Char × Nat)
  nextObj : Nat
deriving DecidableEq, Repr

def CharacterFactory.empty : CharacterFactory :=
  { characters := [], nextObj := 0 }

/-- `CharacterFactory::getCharacter(c)`: if `c` is not in the map, insert
`characters[c] = std::make_shared<ConcreteCharacter>(c)`; return
`characters[c]`. -/
def CharacterFactory.getCharacter (f : CharacterFactory) (c : Char) :
    Nat × CharacterFactory :=
  match f.characters.lookup c with
  | none =>
    let obj := f.nextObj
    (obj, { characters := (c, obj) :: f.characters, nextObj := obj + 1 })
  | some obj => (obj, f)

/-! ### Composite pattern: `composite_example.md`

`Graphic` is the component interface; `Circle` and `Rectangle` are
leaves; `Group` holds a vector of child graphics and `draw` recurses over
the children between a start line and an end line. -/

inductive Graphic where
  | circle
  | rectangle
  | group (children : List Graphic)

/-- `Circle::draw`, `Rectangle::draw` and `Group::draw`: the lines each
writes, with a `Group` traversing its children in order. -/
def Graphic.draw (g : Graphic) : List String :=
  match g with
  | .circle => ["Drawing Circle"]
  | .rectangle => ["Drawing Rectangle"]
  | .group children =>
    "Group Drawing Start:" ::
      (children.attach.map (fun c => Graphic.draw c.1)).flatten ++
      ["Group Drawing End"]
termination_by sizeOf g
decreasing_by
  have := List.sizeOf_lt_of_mem c.2
  simp only [Graphic.group.sizeOf_spec]
  omega

/-- Number of lines `draw` writes, computed directly from the tree shape:
one per leaf, two framing lines per group. -/
def Graphic.drawLineCount (g : Graphic) : Nat :=
  match g with
  | .circle => 1
  | .rectangle => 1
  | .group children =>
    2 + (children.attach.map (fun c => Graphic.drawLineCount c.1)).sum
termination_by sizeOf g
decreasing_by
  have := List.sizeOf_lt_of_mem c.2
  simp only [Graphic.group.sizeOf_spec]
  omega

/-- `main` of the composite demo: `group1 = {circle1, rect1}`,
`group2 = {circle2, group1}`, then `group2->draw()`. -/
def compositeMain (_e : Env) : List String × Int :=
  let group1 : Graphic := .group [.circle, .rectangle]
  let group2 : Graphic := .group [.circle, group1]
  (group2.draw, 0)

/-! ### Iterator pattern: `book_iterator_emaple.md`

`Library` stores a `std::vector<Book>`; `addBook` is `push_back`.
`BookIterator` holds a reference to the vector and an index; `hasNext`
compares the index with the size, `next` returns `books.at(index++)`.
`at` is modelled as the `Option`-returning access it is: `some` on an
in-bounds index, `none` for the `std::out_of_range` throw. -/

structure Book where
  name : String
deriving DecidableEq, Repr

def Book.getName (b : Book) : String := b.name

structure Library where
  books : List Book
deriving DecidableEq, Repr

def Library.empty : Library := { books := [] }

/-- `Library::addBook`: `books.push_back(book)`. -/
def Library.addBook (lib : Library) (book : Book) : Library :=
  { books := lib.books ++ [book] }

structure BookIterator where
  books : List Book
  index : Nat
deriving DecidableEq, Repr

/-- `Library::createIterator`: a `BookIterator` over the library's
vector, starting at index 0. -/
def Library.createIterator (lib : Library) : BookIterator :=
  { books := lib.books, index := 0 }

/-- `BookIterator::hasNext`: `index < books.size()`. -/
def BookIterator.hasNext (it : BookIterator) : Bool :=
  it.index < it.books.length

/-- `BookIterator::next`: `books.at(index++)`; `none` models the
`std::out_of_range` exception `at` throws when the index is out of
bounds. -/
def BookIterator.next (it : BookIterator) :
    Option (Book × BookIterator) :=
  match it.books.get? it.index with
  | some b => some (b, { it with index := it.index + 1 })
  | none => none

/-- The client loop `while (iterator->hasNext()) { ... next() ... }`,
collecting the visited books in order.  It runs down the distance from
the index to the size, exactly as the loop does. -/
def BookIterator.drain (it : BookIterator) : List Book :=
  if h : it.hasNext then
    match hnext : it.next with
    | some (b, it') => b :: it'.drain
    | none => []
  else []
termination_by it.books.length - it.index
decreasing_by
  simp only [BookIterator.next] at hnext
  cases hget : it.books.get? it.index with
  | none =>
    rw [hget] at hnext
    exact absurd hnext (by simp)
  | some b0 =>
    rw [hget] at hnext
    simp only [Option.some.injEq, Prod.mk.injEq] at hnext
    have hlt : it.index < it.books.length := by
      simpa [BookIterator.hasNext] using h
    obtain ⟨hb, hit⟩ := hnext
    subst hit
    simp only
    omega

/-- `main` of the iterator demo: three `addBook` calls, then the drain
loop printing one `Reading:` line per book. -/
def iteratorMain (_e : Env) : List String × Int :=
  let library :=
    ((Library.empty.addBook { name := "Design Patterns" }).addBook
      { name := "Clean Code" }).addBook { name := "Effective C++" }
  ((library.createIterator.drain).map
    (fun book => "Reading: " ++ book.getName), 0)

/-! ### Facade pattern: `facade_example.md`

Three subsystems whose methods each print one line, and
`HomeTheaterFacade` sequencing them in `watchMovie` / `endMovie`. -/

def dvdOn : List String := ["DVD Player ON"]
def dvdPlay (movie : String) : List String := ["Playing movie: " ++ movie]
def dvdOff : List String := ["DVD Player OFF"]
def projectorOn : List String := ["Projector ON"]
def projectorWideScreenMode : List String := ["Setting to widescreen mode"]
def projectorOff : List String := ["Projector OFF"]
def ampOn : List String := ["Amplifier ON"]
def ampSetVolume (level : Int) : List String :=
  ["Setting volume to " ++ toString level]
def ampOff : List String := ["Amplifier OFF"]

/-- `HomeTheaterFacade::watchMovie(movie)`. -/
def watchMovie (movie : String) : List String :=
  "Get ready to watch a movie..." ::
    projectorOn ++ projectorWideScreenMode ++ ampOn ++ ampSetVolume 5 ++
      dvdOn ++ dvdPlay movie

/-- `HomeTheaterFacade::endMovie`. -/
def endMovie : List String :=
  "Shutting movie theater down..." :: dvdOff ++ ampOff ++ projectorOff

/-- `main` of the facade demo: `watchMovie("Inception")`, a blank line
(the lone `"\n"`), then `endMovie()`. -/
def facadeMain (_e : Env) : List String × Int :=
  (watchMovie "Inception" ++ [""] ++ endMovie, 0)

/-- `main` of the decorator demo as a run: prints the decorated
beverage's description and cost on one line.  The cost is rendered from
the exact rational; the demo value `2.79` has an exact decimal form. -/
def decoratorMain (_e : Env) : List String × Int :=
  ([decoratorDemoBeverage.getDescription ++ " $" ++
      toString (decoratorDemoBeverage.cost * 100) ++ "/100"], 0)

/-! ### Helper lemmas -/

/-- Sequentially, the double-checked variant performs exactly the
mutex-first variant's transition: the inner re-check sees the same slot
the outer check saw. -/
theorem dclGetInstance_eq : dclGetInstance = threadSafeGetInstance := by
  funext s
  cases h : s.inst <;> simp [dclGetInstance, threadSafeGetInstance, h]

/-- The function-local-static variant also performs the same
initialize-once transition. -/
theorem meyersGetInstance_eq : meyersGetInstance = threadSafeGetInstance := rfl

/-- Once the slot is filled with `p`, every further call returns `p` and
leaves the state untouched. -/
theorem runCalls_threadSafe_some (n : Nat) (p m : Nat) :
    runCalls threadSafeGetInstance { inst := some p, nextPtr := m } n =
      (List.replicate n p, { inst := some p, nextPtr := m }) := by
  induction n with
  | zero => rfl
  | succ k ih => simp [runCalls, threadSafeGetInstance, ih, List.replicate_succ]

/-- From the program's initial state, `n + 1` calls perform exactly one
allocation, return pointer 0 every time, and leave the slot filled. -/
theorem runCalls_threadSafe_init (n : Nat) :
    runCalls threadSafeGetInstance PtrState.init (n + 1) =
      (List.replicate (n + 1) 0, { inst := some 0, nextPtr := 1 }) := by
  simp [runCalls, PtrState.init, threadSafeGetInstance,
    runCalls_threadSafe_some, List.replicate_succ]

/-- The three sequential singleton invariants, for any of the embedded
`getInstance` transitions that equals the mutex-first one. -/
theorem singleton_invariants (get : PtrState → Nat × PtrState)
    (hget : get = threadSafeGetInstance) (n : Nat) :
    (runCalls get PtrState.init n).2.nextPtr ≤ 1 ∧
      (∀ p ∈ (runCalls get PtrState.init n).1, p = 0) ∧
      (1 ≤ n → (runCalls get PtrState.init n).2.inst = some 0) := by
  subst hget
  cases n with
  | zero => simp [runCalls, PtrState.init]
  | succ k =>
    rw [runCalls_threadSafe_init]
    refine ⟨by simp, ?_, fun _ => rfl⟩
    intro p hp
    exact List.eq_of_mem_replicate hp

/-- `draw` writes exactly `drawLineCount` lines: one per leaf, two
framing lines per group.  In particular `Group::draw` terminates with
finite output on every finite tree of children. -/
theorem Graphic.draw_length (g : Graphic) :
    g.draw.length = g.drawLineCount := by
  induction g using Graphic.draw.induct with
  | case1 => simp [Graphic.draw, Graphic.drawLineCount]
  | case2 => simp [Graphic.draw, Graphic.drawLineCount]
  | case3 children ih =>
    rw [Graphic.draw, Graphic.drawLineCount]
    simp [Function.comp_def]
    have hmap : children.map (fun x => x.draw.length)
        = children.map Graphic.drawLineCount :=
      List.map_congr_left (fun x hx => ih ⟨x, hx⟩)
    rw [hmap]
    omega

/-- Under the `hasNext` guard, `next` succeeds with the element at the
current index and the advanced iterator: the `std::out_of_range` branch
of `at` is unreachable. -/
theorem BookIterator.next_of_hasNext (it : BookIterator)
    (h : it.hasNext = true) :
    it.next = some (it.books.get
        ⟨it.index, by simpa [BookIterator.hasNext] using h⟩,
      { books := it.books, index := it.index + 1 }) := by
  have hlt : it.index < it.books.length := by
    simpa [BookIterator.hasNext] using h
  simp [BookIterator.next, List.get?_eq_getElem?,
    List.getElem?_eq_getElem hlt, List.get_eq_getElem]

/-- The client drain loop visits exactly the suffix of the vector from
the current index on; induction on the remaining distance, the measure
the loop runs down. -/
theorem BookIterator.drain_eq_drop_aux (k : Nat) :
    ∀ it : BookIterator, it.books.length - it.index ≤ k →
      it.drain = it.books.drop it.index := by
  induction k with
  | zero =>
    intro it hle
    have hnot : ¬it.hasNext = true := by
      simp [BookIterator.hasNext]
      omega
    rw [BookIterator.drain, dif_neg hnot]
    exact (List.drop_eq_nil_of_le (by omega)).symm
  | succ k ih =>
    intro it hle
    by_cases h : it.hasNext = true
    · have hlt : it.index < it.books.length := by
        simpa [BookIterator.hasNext] using h
      rw [BookIterator.drain, dif_pos h]
      split
      · rename_i b it' heq
        rw [BookIterator.next_of_hasNext it h] at heq
        simp only [Option.some.injEq, Prod.mk.injEq] at heq
        obtain ⟨hb, hit⟩ := heq
        subst hb
        subst hit
        rw [ih { books := it.books, index := it.index + 1 } (by simp; omega)]
        simp only [List.get_eq_getElem]
        exact (List.drop_eq_getElem_cons hlt).symm
      · rename_i heq
        rw [BookIterator.next_of_hasNext it h] at heq
        exact absurd heq (by simp)
    · rw [BookIterator.drain, dif_neg h]
      have : it.books.length ≤ it.index := by
        simp [BookIterator.hasNext] at h
        omega
      exact (List.drop_eq_nil_of_le this).symm

/-- The drain loop, from any iterator state. -/
theorem BookIterator.drain_eq_drop (it : BookIterator) :
    it.drain = it.books.drop it.index :=
  BookIterator.drain_eq_drop_aux (it.books.length - it.index) it le_rfl

/-- Folding `addBook` over a list appends it to the stored vector. -/
theorem Library.foldl_addBook (bs : List Book) (lib : Library) :
    bs.foldl Library.addBook lib = { books := lib.books ++ bs } := by
  induction bs generalizing lib with
  | nil => simp
  | cons b tl ih => simp [Library.addBook, ih]

/-! ### Claim theorems -/

/-- C1: Running the builder-pattern demo prints exactly the gaming-PC
line `Computer [CPU=Intel i9, RAM=32GB, GraphicsCard=true,
Bluetooth=true]` followed by the office-PC line `Computer [CPU=Intel i5,
RAM=16GB, GraphicsCard=false, Bluetooth=true]`: `printSpecs` formats the
four fields in order CPU, RAM, GraphicsCard, Bluetooth with booleans
rendered `true`/`false`. -/
theorem builder_demo_output (e : Env) :
    builderMain e =
      (["Computer [CPU=Intel i9, RAM=32GB, GraphicsCard=true, Bluetooth=true]",
        "Computer [CPU=Intel i5, RAM=16GB, GraphicsCard=false, Bluetooth=true]"],
       0) := rfl

/-- C2: For every input string that is not a recognized key, a factory
lookup returns a null result and creates no object: `getShape` yields
`none` off `{circle, rectangle, square}`, and `getEnemy` yields `none`
for any key missing from the prototype registry, with the factory state
returned unchanged on the failure path (`ShapeFactory` is stateless, so
its failure path trivially preserves state). -/
theorem factory_unknown_key_returns_null :
    (∀ s : String, s ≠ "circle" → s ≠ "rectangle" → s ≠ "square" →
      getShape s = none) ∧
    (∀ (f : EnemyFactory) (t : String), f.prototypes.lookup t = none →
      f.getEnemy t = (none, f)) := by
  constructor
  · intro s h1 h2 h3
    simp [getShape, h1, h2, h3]
  · intro f t h
    simp [EnemyFactory.getEnemy, h]

/-- Witness for C2 at the concrete unknown keys `"triangle"` and
`"dragon"` against the initialized prototype registry. -/
theorem factory_unknown_key_returns_null_witness :
    getShape "triangle" = none ∧
      EnemyFactory.initRegistry.getEnemy "dragon" =
        (none, EnemyFactory.initRegistry) :=
  ⟨factory_unknown_key_returns_null.1 "triangle" (by decide) (by decide)
      (by decide),
   factory_unknown_key_returns_null.2 EnemyFactory.initRegistry "dragon"
      (by decide)⟩

/-- C3: Each singleton class maintains a single shared instance over any
sequential sequence of `getInstance` calls: the allocation counter
advances at most once, every call returns pointer 0, and after the first
call the slot holds `some 0` at every later point. -/
theorem singleton_single_instance :
    (∀ n, (runCalls threadSafeGetInstance PtrState.init n).2.nextPtr ≤ 1 ∧
      (∀ p ∈ (runCalls threadSafeGetInstance PtrState.init n).1, p = 0) ∧
      (1 ≤ n →
        (runCalls threadSafeGetInstance PtrState.init n).2.inst = some 0)) ∧
    (∀ n, (runCalls dclGetInstance PtrState.init n).2.nextPtr ≤ 1 ∧
      (∀ p ∈ (runCalls dclGetInstance PtrState.init n).1, p = 0) ∧
      (1 ≤ n →
        (runCalls dclGetInstance PtrState.init n).2.inst = some 0)) ∧
    (∀ n, (runCalls meyersGetInstance PtrState.init n).2.nextPtr ≤ 1 ∧
      (∀ p ∈ (runCalls meyersGetInstance PtrState.init n).1, p = 0) ∧
      (1 ≤ n →
        (runCalls meyersGetInstance PtrState.init n).2.inst = some 0)) :=
  ⟨fun n => singleton_invariants _ rfl n,
   fun n => singleton_invariants _ dclGetInstance_eq n,
   fun n => singleton_invariants _ meyersGetInstance_eq n⟩

/-- Witness for C3: three sequential calls on the double-checked variant
return pointer 0 and leave the slot filled after one allocation. -/
theorem singleton_single_instance_witness :
    (runCalls dclGetInstance PtrState.init 3).2.nextPtr ≤ 1 ∧
      (0 ∈ (runCalls dclGetInstance PtrState.init 3).1 ∧ 0 = 0) ∧
      (1 ≤ 3 ∧ (runCalls dclGetInstance PtrState.init 3).2.inst = some 0) :=
  ⟨(singleton_single_instance.2.1 3).1,
   ⟨by decide, (singleton_single_instance.2.1 3).2.1 0 (by decide)⟩,
   ⟨by decide, (singleton_single_instance.2.1 3).2.2 (by decide)⟩⟩

/-- C4: `ShapeFactory::getShape` maps `"circle"`, `"rectangle"` and
`"square"` to the three shapes whose `draw` lines are `Drawing a
Circle` / `Drawing a Rectangle` / `Drawing a Square`, and every
non-`none` result is one of those three shapes. -/
theorem shape_factory_three_shapes :
    (getShape "circle" = some Shape.circle ∧
      Shape.circle.draw = "Drawing a Circle") ∧
    (getShape "rectangle" = some Shape.rectangle ∧
      Shape.rectangle.draw = "Drawing a Rectangle") ∧
    (getShape "square" = some Shape.square ∧
      Shape.square.draw = "Drawing a Square") ∧
    (∀ s sh, getShape s = some sh →
      sh = Shape.circle ∨ sh = Shape.rectangle ∨ sh = Shape.square) := by
  refine ⟨⟨rfl, rfl⟩, ⟨rfl, rfl⟩, ⟨rfl, rfl⟩, ?_⟩
  intro s sh _
  cases sh <;> simp

/-- Witness for C4 at the concrete key `"circle"`. -/
theorem shape_factory_three_shapes_witness :
    getShape "circle" = some Shape.circle ∧
      (Shape.circle = Shape.circle ∨ Shape.circle = Shape.rectangle ∨
        Shape.circle = Shape.square) :=
  ⟨rfl, shape_factory_three_shapes.2.2.2 "circle" Shape.circle rfl⟩

/-- C5: Every embedded demo `main` is deterministic with fixed output:
any two runs, under arbitrary and possibly different process
environments, produce identical results. -/
theorem demos_deterministic (e₁ e₂ : Env) :
    builderMain e₁ = builderMain e₂ ∧ facadeMain e₁ = facadeMain e₂ ∧
      compositeMain e₁ = compositeMain e₂ ∧
      iteratorMain e₁ = iteratorMain e₂ ∧
      decoratorMain e₁ = decoratorMain e₂ :=
  ⟨rfl, rfl, rfl, rfl, rfl⟩

/-- C6: The LSP-violation example raises on every invocation:
`Ostrich::fly` throws `std::logic_error("Ostrich can\x27t fly")` with no
output, while `Bird::fly` (and `Crow`, which inherits it) returns
normally after printing `Flying`. -/
theorem lsp_ostrich_throws :
    ostrichFly = Except.error "Ostrich can\x27t fly" ∧
      birdFly = Except.ok ["Flying"] ∧ crowFly = Except.ok ["Flying"] :=
  ⟨rfl, rfl, rfl⟩

/-- C7: Every demo `main` terminates, printing finitely many lines and
returning 0; the composite demo prints its seven fixed lines, and
`Group::draw` terminates on every finite tree, writing exactly
`drawLineCount` lines (one per leaf, two per group). -/
theorem demos_terminate (e : Env) :
    compositeMain e =
      (["Group Drawing Start:", "Drawing Circle", "Group Drawing Start:",
        "Drawing Circle", "Drawing Rectangle", "Group Drawing End",
        "Group Drawing End"], 0) ∧
    iteratorMain e =
      (["Reading: Design Patterns", "Reading: Clean Code",
        "Reading: Effective C++"], 0) ∧
    (builderMain e).2 = 0 ∧ (facadeMain e).2 = 0 ∧ (decoratorMain e).2 = 0 ∧
    ∀ g : Graphic, g.draw.length = g.drawLineCount := by
  refine ⟨?_, ?_, rfl, rfl, rfl, Graphic.draw_length⟩
  · simp [compositeMain, Graphic.draw]
  · simp [iteratorMain, Library.empty, Library.addBook,
      Library.createIterator, BookIterator.drain_eq_drop, Book.getName]

/-- C8: The flyweight factory caches one object per symbol: a repeated
request is idempotent (same object, factory unchanged), a hit performs
no allocation, and a request for one character never changes the object
mapped to any other character. -/
theorem flyweight_one_object_per_char :
    (∀ (f : CharacterFactory) (c : Char),
      (f.getCharacter c).2.getCharacter c =
        ((f.getCharacter c).1, (f.getCharacter c).2)) ∧
    (∀ (f : CharacterFactory) (c : Char) (obj : Nat),
      f.characters.lookup c = some obj → f.getCharacter c = (obj, f)) ∧
    (∀ (f : CharacterFactory) (c c' : Char), c' ≠ c →
      (f.getCharacter c).2.characters.lookup c' =
        f.characters.lookup c') := by
  refine ⟨?_, ?_, ?_⟩
  · intro f c
    cases h : f.characters.lookup c with
    | none => simp [CharacterFactory.getCharacter, h, List.lookup]
    | some obj => simp [CharacterFactory.getCharacter, h]
  · intro f c obj h
    simp [CharacterFactory.getCharacter, h]
  · intro f c c' hne
    cases h : f.characters.lookup c with
    | none =>
      simp [CharacterFactory.getCharacter, h, List.lookup,
        beq_eq_false_iff_ne.mpr hne]
    | some obj => simp [CharacterFactory.getCharacter, h]

/-- Witness for C8: a factory already holding `'a'` serves it without
allocating, and requesting `'a'` on the empty factory leaves the entry
for `'b'` (absent) unchanged. -/
theorem flyweight_one_object_per_char_witness :
    ({ characters := [('a', 0)], nextObj := 1 } : CharacterFactory).getCharacter
        'a' = (0, { characters := [('a', 0)], nextObj := 1 }) ∧
      (CharacterFactory.empty.getCharacter 'a').2.characters.lookup 'b' =
        CharacterFactory.empty.characters.lookup 'b' :=
  ⟨flyweight_one_object_per_char.2.1
      { characters := [('a', 0)], nextObj := 1 } 'a' 0 (by decide),
   flyweight_one_object_per_char.2.2 CharacterFactory.empty 'a' 'b'
      (by decide)⟩

/-- C9: Decorators compose homomorphically over the wrapped beverage:
Milk appends `, Milk` to the description and adds 0.30 to the cost, Whip
appends `, Whip` and adds 0.50; the demo chain Whip(Milk(Espresso)) has
description `Espresso, Milk, Whip` and cost 1.99 + 0.30 + 0.50. -/
theorem decorator_homomorphism :
    (∀ b : Beverage,
      (Beverage.milkDecorator b).getDescription =
          b.getDescription ++ ", Milk" ∧
        (Beverage.milkDecorator b).cost = b.cost + 0.30) ∧
    (∀ b : Beverage,
      (Beverage.whipDecorator b).getDescription =
          b.getDescription ++ ", Whip" ∧
        (Beverage.whipDecorator b).cost = b.cost + 0.50) ∧
    decoratorDemoBeverage.getDescription = "Espresso, Milk, Whip" ∧
    decoratorDemoBeverage.cost = 1.99 + 0.30 + 0.50 :=
  ⟨fun _ => ⟨rfl, rfl⟩, fun _ => ⟨rfl, rfl⟩, rfl, rfl⟩

/-- C10: The book iterator enumerates the collection exactly in
insertion order: draining the iterator of a library built by any
sequence of `addBook` calls yields the books added, in order; `hasNext`
holds iff the index is strictly below the size; and under that guard
`next` succeeds (the out-of-range branch is unreachable). -/
theorem iterator_enumerates_in_order :
    (∀ books : List Book,
      ((books.foldl Library.addBook Library.empty).createIterator).drain =
        books) ∧
    (∀ it : BookIterator, it.hasNext = true ↔ it.index < it.books.length) ∧
    (∀ it : BookIterator, it.hasNext = true →
      ∃ b it', it.next = some (b, it')) := by
  refine ⟨?_, ?_, ?_⟩
  · intro books
    rw [Library.foldl_addBook]
    simp [Library.empty, Library.createIterator, BookIterator.drain_eq_drop]
  · intro it
    simp [BookIterator.hasNext]
  · intro it h
    exact ⟨_, _, BookIterator.next_of_hasNext it h⟩

/-- Witness for C10: a one-book library drains to that book, and a fresh
iterator over a singleton vector has a successful `next`. -/
theorem iterator_enumerates_in_order_witness :
    (([{ name := "Design Patterns" }] : List Book).foldl Library.addBook
        Library.empty).createIterator.drain =
      [{ name := "Design Patterns" }] ∧
    ∃ b it',
      ({ books := [{ name := "Clean Code" }], index := 0 } :
        BookIterator).next = some (b, it') :=
  ⟨iterator_enumerates_in_order.1 [{ name := "Design Patterns" }],
   iterator_enumerates_in_order.2.2
      { books := [{ name := "Clean Code" }], index := 0 } (by decide)⟩

end LLD
